import Mathlib

/-!
Verification of the invoice record-reconciliation engine.

The definitions below are a shallow embedding of the TypeScript source:
`src/utils/comparator.ts` (the matcher, field comparator and result
assembler) and `formatDateToDisplay` from the spreadsheet service.
JavaScript strings are modelled as Lean `String` (lists of characters),
JavaScript numbers carrying monetary amounts as `ℚ`, and `parseInt` on an
all-digit string as exact decimal parsing into `ℕ` (exact where the source's
IEEE-754 doubles are exact; see `normalizeInvoiceId`).
-/

/-- ASCII lower-casing, as JavaScript `toLowerCase` acts on the ASCII range. -/
def jsToLower (c : Char) : Char :=
  if 65 ≤ c.toNat ∧ c.toNat ≤ 90 then Char.ofNat (c.toNat + 32) else c

/-- Characters kept by the regex `[^a-z0-9]` removal: `a`–`z` and `0`–`9`. -/
def isLowerAlnum (c : Char) : Bool :=
  (48 ≤ c.toNat && c.toNat ≤ 57) || (97 ≤ c.toNat && c.toNat ≤ 122)

/-- The regex class `\d`: a decimal digit `0`–`9`. -/
def isDigitChar (c : Char) : Bool :=
  48 ≤ c.toNat && c.toNat ≤ 57

/-- The decimal digit character for `n < 10`. -/
def digitChar (n : ℕ) : Char := Char.ofNat (48 + n)

/-- Decimal value of a digit character. -/
def digitVal (c : Char) : ℕ := c.toNat - 48

/-- `parseInt(s, 10)` on an all-digit string: Horner evaluation of the digits. -/
def parseDigits (l : List Char) : ℕ :=
  l.foldl (fun a c => 10 * a + digitVal c) 0

/-- Little-endian decimal digits of `n`, fuelled so the recursion is
structural; `fuel > n` always suffices since the argument shrinks by a
factor of ten each step. -/
def toDigitsRevAux : ℕ → ℕ → List Char
  | _, 0 => []
  | n, fuel + 1 =>
    if n < 10 then [digitChar n] else digitChar (n % 10) :: toDigitsRevAux (n / 10) fuel

/-- Little-endian decimal digits of `n` (JavaScript `Number.toString()` for
integers, before reversal). -/
def toDigitsRev (n : ℕ) : List Char := toDigitsRevAux n (n + 1)

/-- `Number.toString()` for a natural number. -/
def natToString (n : ℕ) : String := ⟨(toDigitsRev n).reverse⟩

/-- `needle.isPrefixOf hay` lifted to a containment scan: JavaScript
`hay.includes(needle)` on character lists. -/
def listIncludes : List Char → List Char → Bool
  | [], needle => needle.isEmpty
  | h :: t, needle => needle.isPrefixOf (h :: t) || listIncludes t needle

/-- JavaScript `hay.includes(needle)`. -/
def strIncludes (hay needle : String) : Bool := listIncludes hay.data needle.data

/-- JavaScript `String.prototype.trim` on character lists. -/
def jsTrim (l : List Char) : List Char :=
  ((l.dropWhile Char.isWhitespace).reverse.dropWhile Char.isWhitespace).reverse

/-- JavaScript `split('-')`: every occurrence of `-` is a separator and empty
pieces are kept, `"".split('-') = [""]`. -/
def splitDash : List Char → List (List Char)
  | [] => [[]]
  | c :: rest =>
    match splitDash rest with
    | [] => [[c]]
    | h :: t => if c = '-' then [] :: h :: t else (c :: h) :: t

/-- JavaScript `padStart(2, '0')`. -/
def padTo2 (l : List Char) : List Char :=
  List.replicate (2 - l.length) '0' ++ l

/-- `cleanString` from `src/utils/comparator.ts`:
`str.toLowerCase().replace(/[^a-z0-9]/g, '')`. -/
def cleanString (str : String) : String :=
  ⟨(str.data.map jsToLower).filter isLowerAlnum⟩

/-- The test `/^\d{k}$/` used by the date regexes: exactly `k` digits. -/
def isDigitsOfLen (k : ℕ) (l : List Char) : Bool :=
  l.length == k && l.all isDigitChar

/-- The trim-and-replace prefix of `formatDateToDisplay`:
`dateStr.trim().replace(/\//g, '-')`. -/
def cleanDate (dateStr : String) : String :=
  ⟨(jsTrim dateStr.data).map (fun c => if c = '/' then '-' else c)⟩

/-- `formatDateToDisplay` from the spreadsheet service: converts recognized
date layouts to `DD-MM-YYYY`; empty input and the literal `Unknown` give the
empty string, anything else falls through to the cleaned input. Total, so it
never throws. -/
def formatDateToDisplay (dateStr : String) : String :=
  if dateStr = "" ∨ dateStr = "Unknown" then "" else
  match splitDash (cleanDate dateStr).data with
  | [p1, p2, p3] =>
    if isDigitsOfLen 2 p1 && isDigitsOfLen 2 p2 && isDigitsOfLen 4 p3 then cleanDate dateStr
    else if isDigitsOfLen 4 p1 && isDigitsOfLen 2 p2 && isDigitsOfLen 2 p3 then
      ⟨p3 ++ '-' :: p2 ++ '-' :: p1⟩
    else if p3.length == 4 then
      ⟨padTo2 p1 ++ '-' :: padTo2 p2 ++ '-' :: p3⟩
    else if p1.length == 4 then
      ⟨padTo2 p3 ++ '-' :: padTo2 p2 ++ '-' :: p1⟩
    else cleanDate dateStr
  | _ => cleanDate dateStr

/-- A cleaned date string is in a recognized layout: three dash-separated
groups with a four-digit group in year position. Inputs whose cleaned form is
not recognized fall through to the cleaned form in `formatDateToDisplay`. -/
def dateRecognized (clean : String) : Bool :=
  match splitDash clean.data with
  | [p1, _, p3] => p3.length == 4 || p1.length == 4
  | _ => false

/-- `normalizeDateForComparison` from `src/utils/comparator.ts`. -/
def normalizeDateForComparison (dateStr : String) : String :=
  formatDateToDisplay dateStr

/-- One invoice observation (`InvoiceData` from `types.ts`); the tax
components are optional in the source and defaulted to `0` with `|| 0`. -/
structure InvoiceData where
  vendorName : String
  gstNumber : String
  invoiceNumber : String
  invoiceDate : String
  taxableAmount : ℚ
  cgstAmount : Option ℚ
  sgstAmount : Option ℚ
  igstAmount : Option ℚ
  totalAmount : ℚ
deriving DecidableEq, Inhabited

/-- A field-level value: JavaScript `string | number | undefined`. -/
inductive FieldValue where
  | str (s : String)
  | num (q : ℚ)
  | undef
deriving DecidableEq

/-- One field-level comparison outcome (`ComparisonField` from `types.ts`). -/
structure ComparisonField where
  fieldName : String
  label : String
  excelValue : FieldValue
  pdfValue : FieldValue
  isMatch : Bool
deriving DecidableEq

/-- Row status tags from `types.ts`. -/
inductive Status where
  | MATCH
  | MISMATCH
  | MISSING_IN_PDF
  | MISSING_IN_EXCEL
deriving DecidableEq

/-- One output row (`InvoiceComparisonResult` from `types.ts`). -/
structure InvoiceComparisonResult where
  invoiceNumber : String
  status : Status
  fields : List ComparisonField
  confidence : Option ℚ
  originalReference : Option InvoiceData
  extractedData : Option InvoiceData
deriving DecidableEq

/-- The pass that produced a matched pair, i.e. the `matchMethod` strings
passed to `buildResult` in the source. -/
inductive MatchMethod where
  | STRICT_GST
  | ID_ONLY
  | HEURISTIC
deriving DecidableEq

/-- `compareNumbers` from `src/utils/comparator.ts`: `|num1 - num2| <= epsilon`.
Written as the equivalent integer inequality on numerators and denominators so
that it evaluates inside the kernel; `compareNumbers_spec` below states the
intended rational reading. Every call site uses the default epsilon of `1.0`. -/
def compareNumbers (num1 num2 epsilon : ℚ) : Bool :=
  decide ((((num1.num * num2.den - num2.num * num1.den).natAbs : ℤ) * epsilon.den)
    ≤ epsilon.num * ((num1.den : ℤ) * (num2.den : ℤ)))

/-- `normalizeInvoiceId`: clean, then if the result is all digits parse and
re-stringify to drop leading zeros. `parseInt(cleaned, 10).toString()` is
modelled as an exact decimal round-trip through `ℕ`; the JavaScript original
runs on IEEE-754 doubles, which lose digits beyond 2^53 and switch to
exponential notation from 1e21, so model and program agree only on all-digit
identifiers short enough to be exactly representable. -/
def normalizeInvoiceId (id : String) : String :=
  let cleaned := cleanString id
  if cleaned ≠ "" ∧ cleaned.data.all isDigitChar then
    natToString (parseDigits cleaned.data)
  else cleaned

/-- `isIdMatch` from `compareInvoices`: normalized equality, or containment of
a cleaned identifier of length above two. -/
def isIdMatch (id1 id2 : String) : Bool :=
  let n1 := normalizeInvoiceId id1
  let n2 := normalizeInvoiceId id2
  if n1 = n2 then true
  else
    let c1 := cleanString id1
    let c2 := cleanString id2
    if c1.length > 2 && strIncludes c2 c1 then true
    else if c2.length > 2 && strIncludes c1 c2 then true
    else false

/-- The identifier test as the specification words it: the two normalized
identifiers are equal, or one of them has length above two and is a substring
of the other. Stated over `normalizeInvoiceId` outputs, to be compared with
`isIdMatch`, whose containment test uses the merely cleaned forms. -/
def specIdMatch (id1 id2 : String) : Bool :=
  let n1 := normalizeInvoiceId id1
  let n2 := normalizeInvoiceId id2
  n1 == n2 || (n1.length > 2 && strIncludes n2 n1) || (n2.length > 2 && strIncludes n1 n2)

/-- The ordered field list `buildResult` constructs for a matched pair. -/
def comparisonFields (excelInv pdfInv : InvoiceData) : List ComparisonField :=
  [ { fieldName := "vendorName", label := "Vendor Name",
      excelValue := .str excelInv.vendorName, pdfValue := .str pdfInv.vendorName,
      isMatch := cleanString excelInv.vendorName == cleanString pdfInv.vendorName
        || strIncludes (cleanString excelInv.vendorName) (cleanString pdfInv.vendorName)
        || strIncludes (cleanString pdfInv.vendorName) (cleanString excelInv.vendorName) },
    { fieldName := "gstNumber", label := "GST Number",
      excelValue := .str excelInv.gstNumber, pdfValue := .str pdfInv.gstNumber,
      isMatch := cleanString excelInv.gstNumber == cleanString pdfInv.gstNumber },
    { fieldName := "invoiceNumber", label := "Invoice Number",
      excelValue := .str excelInv.invoiceNumber, pdfValue := .str pdfInv.invoiceNumber,
      isMatch := isIdMatch excelInv.invoiceNumber pdfInv.invoiceNumber },
    { fieldName := "invoiceDate", label := "Invoice Date",
      excelValue := .str excelInv.invoiceDate, pdfValue := .str pdfInv.invoiceDate,
      isMatch := normalizeDateForComparison excelInv.invoiceDate
        == normalizeDateForComparison pdfInv.invoiceDate },
    { fieldName := "taxableAmount", label := "Taxable (Base) Amount",
      excelValue := .num excelInv.taxableAmount, pdfValue := .num pdfInv.taxableAmount,
      isMatch := compareNumbers excelInv.taxableAmount pdfInv.taxableAmount 1 },
    { fieldName := "cgstAmount", label := "CGST",
      excelValue := .num (excelInv.cgstAmount.getD 0), pdfValue := .num (pdfInv.cgstAmount.getD 0),
      isMatch := compareNumbers (excelInv.cgstAmount.getD 0) (pdfInv.cgstAmount.getD 0) 1 },
    { fieldName := "sgstAmount", label := "SGST",
      excelValue := .num (excelInv.sgstAmount.getD 0), pdfValue := .num (pdfInv.sgstAmount.getD 0),
      isMatch := compareNumbers (excelInv.sgstAmount.getD 0) (pdfInv.sgstAmount.getD 0) 1 },
    { fieldName := "igstAmount", label := "IGST",
      excelValue := .num (excelInv.igstAmount.getD 0), pdfValue := .num (pdfInv.igstAmount.getD 0),
      isMatch := compareNumbers (excelInv.igstAmount.getD 0) (pdfInv.igstAmount.getD 0) 1 },
    { fieldName := "totalAmount", label := "Invoice Amount",
      excelValue := .num excelInv.totalAmount, pdfValue := .num pdfInv.totalAmount,
      isMatch := compareNumbers excelInv.totalAmount pdfInv.totalAmount 1 } ]

/-- `buildResult` from `compareInvoices`: per-field verdicts and the row
status derived from them. -/
def buildResult (excelInv pdfInv : InvoiceData) (matchMethod : MatchMethod) :
    InvoiceComparisonResult :=
  let fields := comparisonFields excelInv pdfInv
  let hasMismatch := fields.any (fun f => !f.isMatch)
  { invoiceNumber := excelInv.invoiceNumber,
    status := if hasMismatch then .MISMATCH else .MATCH,
    fields := fields,
    confidence := some (if matchMethod = .HEURISTIC then 4/5 else 1),
    originalReference := some excelInv,
    extractedData := some pdfInv }

/-- The `MISSING_IN_PDF` row built for a reference record left unresolved. -/
def missingInPdfRow (excelInv : InvoiceData) : InvoiceComparisonResult :=
  { invoiceNumber := excelInv.invoiceNumber,
    status := .MISSING_IN_PDF,
    fields :=
      [ { fieldName := "totalAmount", label := "Expected Amount",
          excelValue := .num excelInv.totalAmount, pdfValue := .undef, isMatch := false },
        { fieldName := "invoiceDate", label := "Expected Date",
          excelValue := .str excelInv.invoiceDate, pdfValue := .undef, isMatch := false } ],
    confidence := none,
    originalReference := some excelInv,
    extractedData := none }

/-- The `MISSING_IN_EXCEL` row built for a candidate record never claimed. -/
def missingInExcelRow (pdfInv : InvoiceData) : InvoiceComparisonResult :=
  { invoiceNumber := pdfInv.invoiceNumber,
    status := .MISSING_IN_EXCEL,
    fields :=
      [ { fieldName := "totalAmount", label := "Invoice Amount",
          excelValue := .undef, pdfValue := .num pdfInv.totalAmount, isMatch := false } ],
    confidence := none,
    originalReference := none,
    extractedData := some pdfInv }

/-- The filtered candidate pool computed at the top of passes 1 and 2:
unclaimed candidates (with their original indices) whose identifier matches
the reference's. -/
def eligibleCandidates (e : InvoiceData) (pdfData : List InvoiceData)
    (claimed : List ℕ) : List (ℕ × InvoiceData) :=
  pdfData.enum.filter fun jp =>
    !(decide (jp.1 ∈ claimed)) && isIdMatch e.invoiceNumber jp.2.invoiceNumber

/-- Pass 1 (`STRICT_GST`): with a non-empty raw tax id on the reference side,
claim the first identifier-matching unclaimed candidate whose cleaned tax id
equals the reference's. -/
def pass1Choose (pdfData : List InvoiceData) (claimed : List ℕ) (e : InvoiceData) :
    Option (ℕ × MatchMethod) :=
  let candidates := eligibleCandidates e pdfData claimed
  if candidates.length > 0 ∧ e.gstNumber ≠ "" then
    (candidates.find? fun jp => cleanString e.gstNumber == cleanString jp.2.gstNumber).map
      fun jp => (jp.1, .STRICT_GST)
  else none

/-- Pass 2 (`ID_ONLY`): among identifier-matching unclaimed candidates prefer
the first whose total amount is within tolerance, falling back to the first
candidate in original order. -/
def pass2Choose (pdfData : List InvoiceData) (claimed : List ℕ) (e : InvoiceData) :
    Option (ℕ × MatchMethod) :=
  match eligibleCandidates e pdfData claimed with
  | [] => none
  | c0 :: _ =>
    some ((((eligibleCandidates e pdfData claimed).find? fun jp =>
      compareNumbers e.totalAmount jp.2.totalAmount 1).getD c0).1, .ID_ONLY)

/-- Pass 3 (`HEURISTIC`): first unclaimed candidate agreeing on total amount
within tolerance and on the normalized issue date (`findIndex` in the
source). -/
def pass3Choose (pdfData : List InvoiceData) (claimed : List ℕ) (e : InvoiceData) :
    Option (ℕ × MatchMethod) :=
  (pdfData.enum.find? fun jp =>
      !(decide (jp.1 ∈ claimed))
      && compareNumbers e.totalAmount jp.2.totalAmount 1
      && (normalizeDateForComparison e.invoiceDate
          == normalizeDateForComparison jp.2.invoiceDate)).map
    fun jp => (jp.1, .HEURISTIC)

/-- One `excelData.forEach` sweep of the source, with the result slots and
the claimed-index set threaded explicitly: a filled slot is skipped (slots
are all empty when pass 1 runs, so its missing skip-check is a no-op), an
empty one is filled when the pass's chooser claims a candidate, and the
claimed index is appended to the claimed set. -/
def runPass (choose : List ℕ → InvoiceData → Option (ℕ × MatchMethod)) :
    List ℕ → List (InvoiceData × Option (ℕ × MatchMethod)) →
    List ℕ × List (Option (ℕ × MatchMethod))
  | claimed, [] => (claimed, [])
  | claimed, (e, slot) :: rest =>
    match slot with
    | some r =>
      let t := runPass choose claimed rest
      (t.1, some r :: t.2)
    | none =>
      match choose claimed e with
      | some (j, m) =>
        let t := runPass choose (claimed ++ [j]) rest
        (t.1, some (j, m) :: t.2)
      | none =>
        let t := runPass choose claimed rest
        (t.1, none :: t.2)

/-- The initial all-empty result slots, paired with their reference records. -/
def initSlots (excelData : List InvoiceData) :
    List (InvoiceData × Option (ℕ × MatchMethod)) :=
  excelData.map fun e => (e, none)

/-- The three matching passes of `compareInvoices` run in order; returns the
final claimed-index set and the per-reference resolution slots. -/
def resolveAll (excelData pdfData : List InvoiceData) :
    List ℕ × List (Option (ℕ × MatchMethod)) :=
  let r1 := runPass (pass1Choose pdfData) [] (initSlots excelData)
  let r2 := runPass (pass2Choose pdfData) r1.1 (excelData.zip r1.2)
  runPass (pass3Choose pdfData) r2.1 (excelData.zip r2.2)

/-- The claimed candidate indices after all three passes
(`matchedPdfIndices` in the source). -/
def finalClaimed (excelData pdfData : List InvoiceData) : List ℕ :=
  (resolveAll excelData pdfData).1

/-- The per-reference resolution slots after all three passes. -/
def finalSlots (excelData pdfData : List InvoiceData) :
    List (Option (ℕ × MatchMethod)) :=
  (resolveAll excelData pdfData).2

/-- The candidate indices named by the filled slots of a slot list. -/
def filledIdxOf (slots : List (Option (ℕ × MatchMethod))) : List ℕ :=
  (slots.filterMap id).map Prod.fst

/-- The candidate indices of the matched pairs, one per filled slot. -/
def matchedIdx (excelData pdfData : List InvoiceData) : List ℕ :=
  filledIdxOf (finalSlots excelData pdfData)

/-- The candidate indices never claimed, in original candidate order; each
yields one `MISSING_IN_EXCEL` row. -/
def onlyCandIdx (excelData pdfData : List InvoiceData) : List ℕ :=
  (List.range pdfData.length).filter fun j =>
    !(decide (j ∈ finalClaimed excelData pdfData))

/-- `compareInvoices`: resolve, then assemble one row per reference record in
input order (matched rows via `buildResult`, the rest `MISSING_IN_PDF`),
followed by one `MISSING_IN_EXCEL` row per unclaimed candidate in input
order. -/
def compareInvoices (excelData pdfData : List InvoiceData) :
    List InvoiceComparisonResult :=
  let st := resolveAll excelData pdfData
  let refRows := (excelData.zip st.2).map fun es =>
    match es.2 with
    | some jm => buildResult es.1 (pdfData.getD jm.1 default) jm.2
    | none => missingInPdfRow es.1
  refRows ++
    ((pdfData.enum.filter fun jp => !(decide (jp.1 ∈ st.1))).map
      fun jp => missingInExcelRow jp.2)

/-- The classified pairs of an output: reference side, candidate side and
status of every row. The specification's order-independence claim is about
the multiset of these. -/
def pairsOf (results : List InvoiceComparisonResult) :
    List (Option InvoiceData × Option InvoiceData × Status) :=
  results.map fun r => (r.originalReference, r.extractedData, r.status)

/-- A candidate index is eligible for a reference in pass 2: in range,
unclaimed, identifier-matching. -/
def eligAt (e : InvoiceData) (pdf : List InvoiceData) (claimed : List ℕ) (k : ℕ) : Prop :=
  k < pdf.length ∧ k ∉ claimed
    ∧ isIdMatch e.invoiceNumber ((pdf.getD k default).invoiceNumber) = true

/-- The candidate at index `k` is within total-amount tolerance of the
reference. -/
def tolAt (e : InvoiceData) (pdf : List InvoiceData) (k : ℕ) : Bool :=
  compareNumbers e.totalAmount (pdf.getD k default).totalAmount 1

/-- A concrete record builder for counterexamples and witnesses; fields not
under test are held constant. -/
def mkRec (id gst date : String) (total : ℚ) : InvoiceData :=
  { vendorName := "v", gstNumber := gst, invoiceNumber := id, invoiceDate := date,
    taxableAmount := 0, cgstAmount := none, sgstAmount := none, igstAmount := none,
    totalAmount := total }

/-- Reference record with identifier `AAA1` and total `100`. -/
def recRefLow : InvoiceData := mkRec "AAA1" "" "01-01-2024" 100

/-- Reference record with identifier `AAA1` and total `200`. -/
def recRefHigh : InvoiceData := mkRec "AAA1" "" "01-01-2024" 200

/-- Candidate record with identifier `AAA1` and total `200`. -/
def recCand : InvoiceData := mkRec "AAA1" "" "01-01-2024" 200

/-- Reference record for the pass-2 tie-break witness. -/
def recTieRef : InvoiceData := mkRec "XY9" "" "01-01-2024" 100

/-- Candidate whose total is far from `recTieRef`'s. -/
def recTieFar : InvoiceData := mkRec "XY-9" "" "01-01-2024" 500

/-- Candidate whose total is within tolerance of `recTieRef`'s. -/
def recTieNear : InvoiceData := mkRec "XY-9" "" "01-01-2024" 100

/-- Reference record whose tax id is punctuation only. -/
def recPunctRef : InvoiceData := mkRec "INV7" "!-!" "01-01-2024" 5

/-- Candidate record whose tax id is different punctuation only. -/
def recPunctCand : InvoiceData := mkRec "INV7" "##" "01-01-2024" 5

/-- Reference record whose raw tax id is the empty string. -/
def recNoGstRef : InvoiceData := mkRec "INV7" "" "01-01-2024" 5

lemma num_eq_mul_den (q : ℚ) : (q.num : ℚ) = q * q.den := by
  have hq : (q.den : ℚ) ≠ 0 := by
    exact_mod_cast q.den_nz
  have h := Rat.num_div_den q
  rw [div_eq_iff hq] at h
  exact h

/-- The intended reading of `compareNumbers`: tolerance comparison of the
difference. -/
lemma compareNumbers_spec (a b e : ℚ) :
    compareNumbers a b e = true ↔ |a - b| ≤ e := by
  unfold compareNumbers
  rw [decide_eq_true_iff, ← Int.abs_eq_natAbs]
  have hDpos : (0 : ℚ) < (a.den : ℚ) * (b.den : ℚ) := by
    have ha := a.pos
    have hb := b.pos
    have ha' : (0 : ℚ) < (a.den : ℚ) := by exact_mod_cast ha
    have hb' : (0 : ℚ) < (b.den : ℚ) := by exact_mod_cast hb
    exact mul_pos ha' hb'
  have hepos : (0 : ℚ) < (e.den : ℚ) := by
    have := e.pos
    exact_mod_cast this
  rw [show (|a.num * (b.den : ℤ) - b.num * (a.den : ℤ)| * (e.den : ℤ)
        ≤ e.num * ((a.den : ℤ) * (b.den : ℤ)))
      ↔ ((|a.num * (b.den : ℤ) - b.num * (a.den : ℤ)| * (e.den : ℤ) : ℤ) : ℚ)
        ≤ ((e.num * ((a.den : ℤ) * (b.den : ℤ)) : ℤ) : ℚ) from (Int.cast_le).symm]
  push_cast
  have hnum : ((a.num : ℚ) * (b.den : ℚ) - (b.num : ℚ) * (a.den : ℚ))
      = (a - b) * ((a.den : ℚ) * (b.den : ℚ)) := by
    rw [num_eq_mul_den a, num_eq_mul_den b]
    ring
  rw [hnum, abs_mul, abs_of_pos hDpos, num_eq_mul_den e]
  constructor
  · intro h
    have hh : |a - b| * (((a.den : ℚ) * (b.den : ℚ)) * (e.den : ℚ))
        ≤ e * (((a.den : ℚ) * (b.den : ℚ)) * (e.den : ℚ)) := by
      calc |a - b| * (((a.den : ℚ) * (b.den : ℚ)) * (e.den : ℚ))
          = |a - b| * ((a.den : ℚ) * (b.den : ℚ)) * (e.den : ℚ) := by ring
        _ ≤ e * (e.den : ℚ) * ((a.den : ℚ) * (b.den : ℚ)) := h
        _ = e * (((a.den : ℚ) * (b.den : ℚ)) * (e.den : ℚ)) := by ring
    exact le_of_mul_le_mul_right
      (by calc |a - b| * (((a.den : ℚ) * (b.den : ℚ)) * (e.den : ℚ))
            ≤ e * (((a.den : ℚ) * (b.den : ℚ)) * (e.den : ℚ)) := hh)
      (mul_pos hDpos hepos)
  · intro h
    calc |a - b| * ((a.den : ℚ) * (b.den : ℚ)) * (e.den : ℚ)
        = |a - b| * (((a.den : ℚ) * (b.den : ℚ)) * (e.den : ℚ)) := by ring
      _ ≤ e * (((a.den : ℚ) * (b.den : ℚ)) * (e.den : ℚ)) :=
          mul_le_mul_of_nonneg_right h (le_of_lt (mul_pos hDpos hepos))
      _ = e * (e.den : ℚ) * ((a.den : ℚ) * (b.den : ℚ)) := by ring

example : formatDateToDisplay "2024-03-07" = "07-03-2024" := by decide
example : formatDateToDisplay "07/03/2024" = "07-03-2024" := by decide
example : formatDateToDisplay "7-3-2024" = "07-03-2024" := by decide
example : cleanString "INV-001" = "inv001" := by decide
example : strIncludes "10055" "100" = true := by decide
example : natToString 100 = "100" := by decide

/-! ### Field comparator: row status -/

/-- C7: a matched row's status is `MATCH` iff every field in its list
matches, and `MISMATCH` otherwise. -/
theorem invoice_C7_status_iff_all_fields (excelInv pdfInv : InvoiceData) (m : MatchMethod) :
    (buildResult excelInv pdfInv m).status = Status.MATCH ↔
      (buildResult excelInv pdfInv m).fields.all (fun f => f.isMatch) = true := by
  have hf : (buildResult excelInv pdfInv m).fields = comparisonFields excelInv pdfInv := rfl
  have hs : (buildResult excelInv pdfInv m).status =
      if (comparisonFields excelInv pdfInv).any (fun f => !f.isMatch)
      then Status.MISMATCH else Status.MATCH := rfl
  rw [hf, hs]
  cases h : (comparisonFields excelInv pdfInv).any (fun f => !f.isMatch) with
  | false =>
    simp only [Bool.false_eq_true, if_false]
    simp only [List.any_eq_false, Bool.not_eq_true'] at h
    simp only [List.all_eq_true, true_iff]
    intro x hx
    cases hb : x.isMatch
    · exact absurd hb (h x hx)
    · rfl
  | true =>
    simp only [if_true]
    simp only [List.any_eq_true, Bool.not_eq_true'] at h
    obtain ⟨f, hfmem, hfm⟩ := h
    constructor
    · intro habs; exact absurd habs (by simp)
    · intro hall
      have := List.all_eq_true.mp hall f hfmem
      rw [hfm] at this
      exact absurd this (by simp)

/-! ### Identifier test (C3) -/

/-- C3 counterexample: on `"0100"` vs `"10055"` the specification's predicate
(normalized identifiers, substring on normalized forms) holds, yet the code's
`isIdMatch` rejects, because the code's substring test runs on the cleaned
forms where the leading zero survives. -/
theorem invoice_C3_cex :
    specIdMatch "0100" "10055" = true ∧ isIdMatch "0100" "10055" = false := by
  constructor <;> decide

/-- C3 amended: `isIdMatch` holds iff the normalized identifiers are equal, or
one of the cleaned (not zero-stripped) identifiers has length above two and is
a substring of the other cleaned identifier. -/
theorem invoice_C3_amended (id1 id2 : String) :
    isIdMatch id1 id2 = true ↔
      (normalizeInvoiceId id1 = normalizeInvoiceId id2
      ∨ ((cleanString id1).length > 2 ∧ strIncludes (cleanString id2) (cleanString id1) = true)
      ∨ ((cleanString id2).length > 2 ∧ strIncludes (cleanString id1) (cleanString id2) = true)) := by
  simp only [isIdMatch]
  split_ifs with h1 h2 h3 <;>
    simp_all [Bool.and_eq_true, decide_eq_true_eq]

/-! ### Date normalizer (C4) -/

/-- C4 counterexample: the unparsable input `N/A` does not normalize to the
empty string; it is returned in cleaned form `N-A`. -/
theorem invoice_C4_cex :
    formatDateToDisplay "N/A" = "N-A" ∧ formatDateToDisplay "N/A" ≠ "" := by
  constructor <;> decide

/-- C4 amended: the date normalizer never throws (it is total); the empty
string and the literal `Unknown` normalize to the empty string; any other
input whose cleaned form is not in a recognized three-group date layout is
returned in cleaned form (trimmed, slashes replaced by dashes), not as the
empty string. -/
theorem invoice_C4_amended :
    formatDateToDisplay "" = "" ∧ formatDateToDisplay "Unknown" = "" ∧
    ∀ dateStr, dateStr ≠ "" → dateStr ≠ "Unknown" →
      dateRecognized (cleanDate dateStr) = false →
      formatDateToDisplay dateStr = cleanDate dateStr := by
  refine ⟨by decide, by decide, ?_⟩
  intro s h1 h2 hrec
  unfold dateRecognized at hrec
  unfold formatDateToDisplay
  rw [if_neg (by tauto)]
  cases hs : splitDash (cleanDate s).data with
  | nil => rfl
  | cons p1 t1 =>
    cases t1 with
    | nil => rfl
    | cons p2 t2 =>
      cases t2 with
      | nil => rfl
      | cons p3 t3 =>
        cases t3 with
        | cons p4 t4 => rfl
        | nil =>
          rw [hs] at hrec
          change (p3.length == 4 || p1.length == 4) = false at hrec
          simp only [Bool.or_eq_false_iff] at hrec
          have h3 : isDigitsOfLen 4 p3 = false := by
            unfold isDigitsOfLen
            rw [hrec.1, Bool.false_and]
          have h1' : isDigitsOfLen 4 p1 = false := by
            unfold isDigitsOfLen
            rw [hrec.2, Bool.false_and]
          simp [h3, h1', hrec.1, hrec.2]

/-- C4 witness: `N/A` is rejected by the recognizer and comes back cleaned. -/
theorem invoice_C4_amended_witness :
    formatDateToDisplay "N/A" = cleanDate "N/A" :=
  invoice_C4_amended.2.2 "N/A" (by decide) (by decide) (by decide)

/-! ### Matcher state machinery -/

lemma runPass_nil (choose : List ℕ → InvoiceData → Option (ℕ × MatchMethod))
    (claimed : List ℕ) : runPass choose claimed [] = (claimed, []) := rfl

lemma runPass_cons_filled (choose : List ℕ → InvoiceData → Option (ℕ × MatchMethod))
    (claimed : List ℕ) (e : InvoiceData) (r : ℕ × MatchMethod) (rest) :
    runPass choose claimed ((e, some r) :: rest) =
      ((runPass choose claimed rest).1, some r :: (runPass choose claimed rest).2) := rfl

lemma runPass_cons_claim {choose : List ℕ → InvoiceData → Option (ℕ × MatchMethod)}
    {claimed : List ℕ} {e : InvoiceData} {j : ℕ} {m : MatchMethod}
    (h : choose claimed e = some (j, m)) (rest) :
    runPass choose claimed ((e, none) :: rest) =
      ((runPass choose (claimed ++ [j]) rest).1,
        some (j, m) :: (runPass choose (claimed ++ [j]) rest).2) := by
  simp only [runPass, h]

lemma runPass_cons_skip {choose : List ℕ → InvoiceData → Option (ℕ × MatchMethod)}
    {claimed : List ℕ} {e : InvoiceData}
    (h : choose claimed e = none) (rest) :
    runPass choose claimed ((e, none) :: rest) =
      ((runPass choose claimed rest).1, none :: (runPass choose claimed rest).2) := by
  simp only [runPass, h]

lemma filledIdxOf_nil : filledIdxOf [] = [] := rfl

lemma filledIdxOf_cons_none (l : List (Option (ℕ × MatchMethod))) :
    filledIdxOf (none :: l) = filledIdxOf l := rfl

lemma filledIdxOf_cons_some (r : ℕ × MatchMethod) (l : List (Option (ℕ × MatchMethod))) :
    filledIdxOf (some r :: l) = r.1 :: filledIdxOf l := rfl

/-- The state invariant carried through one pass: the slot list keeps its
length, the claimed set stays duplicate-free and within candidate range, and
the claimed set is exactly (as a multiset) the previously processed indices
`pre` together with the indices in the filled slots. -/
lemma runPass_ok {n : ℕ} {choose : List ℕ → InvoiceData → Option (ℕ × MatchMethod)}
    (hc : ∀ cl e j m, choose cl e = some (j, m) → j ∉ cl ∧ j < n) :
    ∀ (items : List (InvoiceData × Option (ℕ × MatchMethod))) (claimed pre : List ℕ),
    claimed.Nodup → (∀ j ∈ claimed, j < n) →
    claimed.Perm (pre ++ filledIdxOf (items.map Prod.snd)) →
    (runPass choose claimed items).2.length = items.length ∧
    (runPass choose claimed items).1.Nodup ∧
    (∀ j ∈ (runPass choose claimed items).1, j < n) ∧
    (runPass choose claimed items).1.Perm
      (pre ++ filledIdxOf (runPass choose claimed items).2) := by
  intro items
  induction items with
  | nil =>
    intro claimed pre hnd hbd hperm
    simp only [runPass_nil]
    exact ⟨rfl, hnd, hbd, hperm⟩
  | cons es rest ih =>
    intro claimed pre hnd hbd hperm
    obtain ⟨e, slot⟩ := es
    cases slot with
    | some r =>
      rw [runPass_cons_filled]
      simp only [List.map_cons, filledIdxOf_cons_some] at hperm
      rw [List.append_cons] at hperm
      have := ih claimed (pre ++ [r.1]) hnd hbd hperm
      refine ⟨by simp [this.1], this.2.1, this.2.2.1, ?_⟩
      rw [filledIdxOf_cons_some, List.append_cons]
      exact this.2.2.2
    | none =>
      cases hch : choose claimed e with
      | none =>
        rw [runPass_cons_skip hch]
        simp only [List.map_cons, filledIdxOf_cons_none] at hperm
        have := ih claimed pre hnd hbd hperm
        exact ⟨by simp [this.1], this.2.1, this.2.2.1, by
          rw [filledIdxOf_cons_none]; exact this.2.2.2⟩
      | some jm =>
        obtain ⟨j, m⟩ := jm
        obtain ⟨hjnot, hjlt⟩ := hc claimed e j m hch
        rw [runPass_cons_claim hch]
        simp only [List.map_cons, filledIdxOf_cons_none] at hperm
        have hnd' : (claimed ++ [j]).Nodup := by
          rw [List.nodup_append]
          exact ⟨hnd, List.nodup_singleton j,
            fun a ha hb => by rw [List.mem_singleton] at hb; exact hjnot (hb ▸ ha)⟩
        have hbd' : ∀ k ∈ claimed ++ [j], k < n := by
          intro k hk
          rcases List.mem_append.mp hk with hk | hk
          · exact hbd k hk
          · rw [List.mem_singleton] at hk; exact hk ▸ hjlt
        have hperm' : (claimed ++ [j]).Perm
            ((pre ++ [j]) ++ filledIdxOf (rest.map Prod.snd)) := by
          have hstep : ((pre ++ filledIdxOf (rest.map Prod.snd)) ++ [j]).Perm
              ((pre ++ [j]) ++ filledIdxOf (rest.map Prod.snd)) := by
            rw [List.append_assoc, List.append_assoc]
            exact List.Perm.append_left pre List.perm_append_comm
          exact (hperm.append_right [j]).trans hstep
        have := ih (claimed ++ [j]) (pre ++ [j]) hnd' hbd' hperm'
        have hlast := this.2.2.2
        rw [← List.append_cons] at hlast
        exact ⟨by simp [this.1], this.2.1, this.2.2.1, hlast⟩

/-! ### Candidate pool membership -/

lemma mem_enum_getD {pdf : List InvoiceData} {jp : ℕ × InvoiceData} (h : jp ∈ pdf.enum) :
    jp.1 < pdf.length ∧ pdf.getD jp.1 default = jp.2 := by
  have hg := List.mem_enum_iff_get?.mp h
  obtain ⟨hlt, hget⟩ := List.get?_eq_some.mp hg
  refine ⟨hlt, ?_⟩
  rw [List.getD_eq_get?, hg]
  rfl

lemma enum_mem_of_lt {pdf : List InvoiceData} {k : ℕ} (hk : k < pdf.length) :
    (k, pdf.getD k default) ∈ pdf.enum := by
  apply List.mem_enum_iff_get?.mpr
  show pdf.get? k = some (pdf.getD k default)
  rw [List.get?_eq_get hk, List.getD_eq_get pdf default hk]

lemma mem_eligibleCandidates {e : InvoiceData} {pdf : List InvoiceData}
    {cl : List ℕ} {jp : ℕ × InvoiceData} :
    jp ∈ eligibleCandidates e pdf cl ↔
      jp ∈ pdf.enum ∧ jp.1 ∉ cl
        ∧ isIdMatch e.invoiceNumber jp.2.invoiceNumber = true := by
  unfold eligibleCandidates
  rw [List.mem_filter]
  simp [Bool.and_eq_true, Bool.not_eq_true', decide_eq_false_iff_not, and_assoc]

lemma pass1Choose_ok (pdf : List InvoiceData) :
    ∀ cl e j m, pass1Choose pdf cl e = some (j, m) → j ∉ cl ∧ j < pdf.length := by
  intro cl e j m h
  simp only [pass1Choose] at h
  split_ifs at h with hcond
  · rw [Option.map_eq_some'] at h
    obtain ⟨jp, hfind, hjp⟩ := h
    have hmem := mem_eligibleCandidates.mp (List.mem_of_find?_eq_some hfind)
    cases hjp
    exact ⟨hmem.2.1, (mem_enum_getD hmem.1).1⟩

lemma pass2Choose_ok (pdf : List InvoiceData) :
    ∀ cl e j m, pass2Choose pdf cl e = some (j, m) → j ∉ cl ∧ j < pdf.length := by
  intro cl e j m h
  unfold pass2Choose at h
  split at h
  · exact absurd h (by simp)
  · rename_i c0 tail heq
    have hchosen : (((eligibleCandidates e pdf cl).find? fun jp =>
        compareNumbers e.totalAmount jp.2.totalAmount 1).getD c0) ∈
          eligibleCandidates e pdf cl := by
      cases hf : (eligibleCandidates e pdf cl).find? fun jp =>
          compareNumbers e.totalAmount jp.2.totalAmount 1 with
      | some x => exact List.mem_of_find?_eq_some hf
      | none =>
        show c0 ∈ eligibleCandidates e pdf cl
        rw [heq]
        exact List.mem_cons_self c0 tail
    have hmem := mem_eligibleCandidates.mp hchosen
    injection h with h
    rw [Prod.mk.injEq] at h
    rw [← h.1]
    exact ⟨hmem.2.1, (mem_enum_getD hmem.1).1⟩

lemma pass3Choose_ok (pdf : List InvoiceData) :
    ∀ cl e j m, pass3Choose pdf cl e = some (j, m) → j ∉ cl ∧ j < pdf.length := by
  intro cl e j m h
  unfold pass3Choose at h
  rw [Option.map_eq_some'] at h
  obtain ⟨jp, hfind, hjp⟩ := h
  have hpred := List.find?_some hfind
  have hmem := List.mem_of_find?_eq_some hfind
  simp only [Bool.and_eq_true, Bool.not_eq_true', decide_eq_false_iff_not] at hpred
  cases hjp
  exact ⟨hpred.1.1, (mem_enum_getD hmem).1⟩

/-! ### Composition of the three passes -/

lemma initSlots_length (excel : List InvoiceData) :
    (initSlots excel).length = excel.length := by
  simp [initSlots]

lemma initSlots_map_snd (excel : List InvoiceData) :
    (initSlots excel).map Prod.snd = List.replicate excel.length none := by
  induction excel with
  | nil => rfl
  | cons e t ih => simp only [initSlots, List.map_cons, List.length_cons,
      List.replicate_succ] at ih ⊢; rw [ih]

lemma filledIdxOf_replicate (k : ℕ) :
    filledIdxOf (List.replicate k none) = [] := by
  induction k with
  | zero => rfl
  | succ k ih => rw [List.replicate_succ, filledIdxOf_cons_none, ih]

lemma resolveAll_ok (excel pdf : List InvoiceData) :
    (finalSlots excel pdf).length = excel.length ∧
    (finalClaimed excel pdf).Nodup ∧
    (∀ j ∈ finalClaimed excel pdf, j < pdf.length) ∧
    (finalClaimed excel pdf).Perm (matchedIdx excel pdf) := by
  have h1 := runPass_ok (pass1Choose_ok pdf) (initSlots excel) [] []
    List.nodup_nil (by simp)
    (by rw [initSlots_map_snd, filledIdxOf_replicate, List.append_nil])
  have hlen1 : (runPass (pass1Choose pdf) [] (initSlots excel)).2.length = excel.length := by
    rw [h1.1, initSlots_length]
  have hmap2 : (excel.zip (runPass (pass1Choose pdf) [] (initSlots excel)).2).map Prod.snd
      = (runPass (pass1Choose pdf) [] (initSlots excel)).2 :=
    List.map_snd_zip _ _ (le_of_eq hlen1)
  have h2 := runPass_ok (pass2Choose_ok pdf)
    (excel.zip (runPass (pass1Choose pdf) [] (initSlots excel)).2)
    (runPass (pass1Choose pdf) [] (initSlots excel)).1 []
    h1.2.1 h1.2.2.1 (by rw [hmap2]; exact h1.2.2.2)
  have hlen2 : (runPass (pass2Choose pdf)
      (runPass (pass1Choose pdf) [] (initSlots excel)).1
      (excel.zip (runPass (pass1Choose pdf) [] (initSlots excel)).2)).2.length
      = excel.length := by
    rw [h2.1, List.length_zip, hlen1, min_self]
  have hmap3 : (excel.zip (runPass (pass2Choose pdf)
      (runPass (pass1Choose pdf) [] (initSlots excel)).1
      (excel.zip (runPass (pass1Choose pdf) [] (initSlots excel)).2)).2).map Prod.snd
      = (runPass (pass2Choose pdf)
        (runPass (pass1Choose pdf) [] (initSlots excel)).1
        (excel.zip (runPass (pass1Choose pdf) [] (initSlots excel)).2)).2 :=
    List.map_snd_zip _ _ (le_of_eq hlen2)
  have h3 := runPass_ok (pass3Choose_ok pdf)
    (excel.zip (runPass (pass2Choose pdf)
      (runPass (pass1Choose pdf) [] (initSlots excel)).1
      (excel.zip (runPass (pass1Choose pdf) [] (initSlots excel)).2)).2)
    (runPass (pass2Choose pdf)
      (runPass (pass1Choose pdf) [] (initSlots excel)).1
      (excel.zip (runPass (pass1Choose pdf) [] (initSlots excel)).2)).1 []
    h2.2.1 h2.2.2.1 (by rw [hmap3]; exact h2.2.2.2)
  refine ⟨?_, h3.2.1, h3.2.2.1, ?_⟩
  · show (runPass (pass3Choose pdf) _ _).2.length = excel.length
    rw [h3.1, List.length_zip, hlen2, min_self]
  · show (runPass (pass3Choose pdf) _ _).1.Perm (filledIdxOf (runPass (pass3Choose pdf) _ _).2)
    have := h3.2.2.2
    rw [List.nil_append] at this
    exact this

/-! ### Assembly and counting -/

lemma compareInvoices_eq (excel pdf : List InvoiceData) :
    compareInvoices excel pdf =
      ((excel.zip (finalSlots excel pdf)).map fun es =>
        match es.2 with
        | some jm => buildResult es.1 (pdf.getD jm.1 default) jm.2
        | none => missingInPdfRow es.1) ++
      ((pdf.enum.filter fun jp => !(decide (jp.1 ∈ finalClaimed excel pdf))).map
        fun jp => missingInExcelRow jp.2) := rfl

lemma buildResult_status (e p : InvoiceData) (m : MatchMethod) :
    (buildResult e p m).status = Status.MATCH ∨
    (buildResult e p m).status = Status.MISMATCH := by
  have hs : (buildResult e p m).status =
      if (comparisonFields e p).any (fun f => !f.isMatch)
      then Status.MISMATCH else Status.MATCH := rfl
  rw [hs]
  split_ifs
  · right; rfl
  · left; rfl

lemma filterMap_id_length (l : List (Option (ℕ × MatchMethod))) :
    (l.filterMap id).length = l.countP Option.isSome := by
  induction l with
  | nil => rfl
  | cons a t ih =>
    cases a <;> simp [List.filterMap_cons, List.countP_cons, ih]

lemma range_filter_not_mem {cl : List ℕ} {n : ℕ}
    (hnd : cl.Nodup) (hbd : ∀ j ∈ cl, j < n) :
    ((List.range n).filter fun j => !(decide (j ∈ cl))).length = n - cl.length
      ∧ cl.length ≤ n := by
  have hpm : ((List.range n).filter fun j => decide (j ∈ cl)).Perm cl := by
    apply List.perm_of_nodup_nodup_toFinset_eq ((List.nodup_range n).filter _) hnd
    apply Finset.ext_iff.mpr
    intro a
    rw [List.mem_toFinset, List.mem_toFinset, List.mem_filter]
    constructor
    · intro h
      exact of_decide_eq_true h.2
    · intro h
      exact ⟨List.mem_range.mpr (hbd a h), decide_eq_true h⟩
  have hsplit := (List.filter_append_perm
    (fun j => decide (j ∈ cl)) (List.range n)).length_eq
  rw [List.length_append, List.length_range] at hsplit
  have hlen : ((List.range n).filter fun j => decide (j ∈ cl)).length = cl.length :=
    hpm.length_eq
  constructor
  · omega
  · omega

lemma filter_enum_not_mem_length (pdf : List InvoiceData) (cl : List ℕ) :
    (pdf.enum.filter fun jp => !(decide (jp.1 ∈ cl))).length
      = ((List.range pdf.length).filter fun j => !(decide (j ∈ cl))).length := by
  rw [← List.countP_eq_length_filter, ← List.countP_eq_length_filter]
  have h := List.countP_map (fun j => !(decide (j ∈ cl))) (Prod.fst (β := InvoiceData))
    pdf.enum
  rw [List.enum_map_fst] at h
  exact h.symm

/-- Completeness of the assembled output: every candidate index is carried by
exactly one matched pair or one unclaimed slot, the `MISSING_IN_EXCEL` row
count and matched row count agree with those index lists, and the row count
law holds. -/
lemma reconcile_coverage (excel pdf : List InvoiceData) :
    (∀ j, j < pdf.length →
      (matchedIdx excel pdf).count j + (onlyCandIdx excel pdf).count j = 1) ∧
    (compareInvoices excel pdf).countP
      (fun r => r.status == Status.MISSING_IN_EXCEL) = (onlyCandIdx excel pdf).length ∧
    (compareInvoices excel pdf).countP
      (fun r => r.status == Status.MATCH || r.status == Status.MISMATCH)
      = (matchedIdx excel pdf).length ∧
    (compareInvoices excel pdf).length + (matchedIdx excel pdf).length
      = excel.length + pdf.length ∧
    (matchedIdx excel pdf).length ≤ pdf.length := by
  obtain ⟨hslen, hnd, hbd, hperm⟩ := resolveAll_ok excel pdf
  have hcount : ∀ j, j < pdf.length →
      (matchedIdx excel pdf).count j + (onlyCandIdx excel pdf).count j = 1 := by
    intro j hj
    by_cases hmem : j ∈ finalClaimed excel pdf
    · have h1 : (matchedIdx excel pdf).count j = 1 := by
        rw [← hperm.count_eq]
        exact List.count_eq_one_of_mem hnd hmem
      have h2 : (onlyCandIdx excel pdf).count j = 0 := by
        apply List.count_eq_zero.mpr
        intro habs
        have := (List.mem_filter.mp habs).2
        simp only [Bool.not_eq_true', decide_eq_false_iff_not] at this
        exact this hmem
      omega
    · have h1 : (matchedIdx excel pdf).count j = 0 := by
        rw [← hperm.count_eq]
        exact List.count_eq_zero_of_not_mem hmem
      have h2 : (onlyCandIdx excel pdf).count j = 1 := by
        unfold onlyCandIdx
        rw [List.count_filter (by simp [hmem])]
        exact List.count_eq_one_of_mem (List.nodup_range pdf.length)
          (List.mem_range.mpr hj)
      omega
  have hzip_snd : (excel.zip (finalSlots excel pdf)).map Prod.snd = finalSlots excel pdf :=
    List.map_snd_zip _ _ (le_of_eq hslen)
  have hziplen : (excel.zip (finalSlots excel pdf)).length = excel.length := by
    rw [List.length_zip, hslen, min_self]
  have hmatchlen : (matchedIdx excel pdf).length
      = (finalSlots excel pdf).countP Option.isSome := by
    unfold matchedIdx filledIdxOf
    rw [List.length_map, filterMap_id_length]
  -- the `MISSING_IN_EXCEL` rows are exactly the appended candidate rows
  have hmiss : (compareInvoices excel pdf).countP
      (fun r => r.status == Status.MISSING_IN_EXCEL) = (onlyCandIdx excel pdf).length := by
    rw [compareInvoices_eq, List.countP_append]
    have href : ((excel.zip (finalSlots excel pdf)).map fun es =>
        match es.2 with
        | some jm => buildResult es.1 (pdf.getD jm.1 default) jm.2
        | none => missingInPdfRow es.1).countP
          (fun r => r.status == Status.MISSING_IN_EXCEL) = 0 := by
      apply List.countP_eq_zero.mpr
      intro r hr
      obtain ⟨es, hes, rfl⟩ := List.mem_map.mp hr
      cases hslot : es.2 with
      | some jm =>
        simp only [hslot]
        rcases buildResult_status es.1 (pdf.getD jm.1 default) jm.2 with h | h <;>
          rw [h] <;> decide
      | none =>
        simp only [hslot]
        exact (by decide :
          ¬ ((Status.MISSING_IN_PDF == Status.MISSING_IN_EXCEL) = true))
    have hcand : ((pdf.enum.filter fun jp =>
        !(decide (jp.1 ∈ finalClaimed excel pdf))).map
          fun jp => missingInExcelRow jp.2).countP
          (fun r => r.status == Status.MISSING_IN_EXCEL)
        = (onlyCandIdx excel pdf).length := by
      rw [List.countP_eq_length.mpr, List.length_map]
      · exact filter_enum_not_mem_length pdf (finalClaimed excel pdf)
      · intro r hr
        obtain ⟨jp, hjp, rfl⟩ := List.mem_map.mp hr
        rfl
    rw [href, hcand, Nat.zero_add]
  -- the matched rows are exactly the filled slots
  have hmatch : (compareInvoices excel pdf).countP
      (fun r => r.status == Status.MATCH || r.status == Status.MISMATCH)
      = (matchedIdx excel pdf).length := by
    rw [compareInvoices_eq, List.countP_append]
    have hcand : ((pdf.enum.filter fun jp =>
        !(decide (jp.1 ∈ finalClaimed excel pdf))).map
          fun jp => missingInExcelRow jp.2).countP
          (fun r => r.status == Status.MATCH || r.status == Status.MISMATCH) = 0 := by
      apply List.countP_eq_zero.mpr
      intro r hr
      obtain ⟨jp, hjp, rfl⟩ := List.mem_map.mp hr
      exact (by decide : ¬ ((Status.MISSING_IN_EXCEL == Status.MATCH
        || Status.MISSING_IN_EXCEL == Status.MISMATCH) = true))
    have href : ((excel.zip (finalSlots excel pdf)).map fun es =>
        match es.2 with
        | some jm => buildResult es.1 (pdf.getD jm.1 default) jm.2
        | none => missingInPdfRow es.1).countP
          (fun r => r.status == Status.MATCH || r.status == Status.MISMATCH)
        = (matchedIdx excel pdf).length := by
      rw [List.countP_map]
      have hcg : (excel.zip (finalSlots excel pdf)).countP
          ((fun r => r.status == Status.MATCH || r.status == Status.MISMATCH) ∘
            fun es =>
              match es.2 with
              | some jm => buildResult es.1 (pdf.getD jm.1 default) jm.2
              | none => missingInPdfRow es.1)
          = (excel.zip (finalSlots excel pdf)).countP (fun es => es.2.isSome) := by
        apply List.countP_congr
        intro es hes
        cases hslot : es.2 with
        | some jm =>
          simp only [Function.comp_apply, hslot, Option.isSome_some]
          rcases buildResult_status es.1 (pdf.getD jm.1 default) jm.2 with h | h <;>
            rw [h] <;> decide
        | none =>
          simp only [Function.comp_apply, hslot, Option.isSome_none]
          exact (by decide : ((Status.MISSING_IN_PDF == Status.MATCH
            || Status.MISSING_IN_PDF == Status.MISMATCH) = true ↔ false = true))
      rw [hcg, hmatchlen]
      have := List.countP_map (Option.isSome (α := ℕ × MatchMethod)) Prod.snd
        (excel.zip (finalSlots excel pdf))
      rw [hzip_snd] at this
      exact this.symm
    rw [href, hcand, Nat.add_zero]
  have hrflen := range_filter_not_mem hnd hbd
  have hclen : (finalClaimed excel pdf).length = (matchedIdx excel pdf).length :=
    hperm.length_eq
  have hlen : (compareInvoices excel pdf).length + (matchedIdx excel pdf).length
      = excel.length + pdf.length := by
    rw [compareInvoices_eq, List.length_append, List.length_map, List.length_map,
      hziplen, filter_enum_not_mem_length pdf (finalClaimed excel pdf), hrflen.1]
    have := hrflen.2
    omega
  exact ⟨hcount, hmiss, hmatch, hlen, by omega⟩

/-- C1: every candidate index below the candidate count is carried by exactly
one matched slot or exactly one unclaimed-index entry, and the output rows
follow: one `MISSING_IN_EXCEL` row per unclaimed candidate and one matched
(`MATCH`/`MISMATCH`) row per filled slot, so no candidate record is claimed
by more than one pair across the three passes. -/
theorem invoice_C1_candidate_exactly_once :
    ∀ excel pdf j, j < pdf.length →
    (matchedIdx excel pdf).count j + (onlyCandIdx excel pdf).count j = 1 ∧
    (compareInvoices excel pdf).countP
      (fun r => r.status == Status.MISSING_IN_EXCEL) = (onlyCandIdx excel pdf).length ∧
    (compareInvoices excel pdf).countP
      (fun r => r.status == Status.MATCH || r.status == Status.MISMATCH)
      = (matchedIdx excel pdf).length := by
  intro excel pdf j hj
  obtain ⟨h1, h2, h3, _, _⟩ := reconcile_coverage excel pdf
  exact ⟨h1 j hj, h2, h3⟩

/-- C1 witness at a singleton candidate list. -/
theorem invoice_C1_witness :
    (matchedIdx [] [recCand]).count 0 + (onlyCandIdx [] [recCand]).count 0 = 1 ∧
    (compareInvoices [] [recCand]).countP
      (fun r => r.status == Status.MISSING_IN_EXCEL) = (onlyCandIdx [] [recCand]).length ∧
    (compareInvoices [] [recCand]).countP
      (fun r => r.status == Status.MATCH || r.status == Status.MISMATCH)
      = (matchedIdx [] [recCand]).length :=
  invoice_C1_candidate_exactly_once [] [recCand] 0 (by decide)

/-- C2: the number of output rows equals the reference count plus the
candidate count minus the number of matched pairs. -/
theorem invoice_C2_row_count :
    ∀ excel pdf,
    (compareInvoices excel pdf).length
      = excel.length + pdf.length - (matchedIdx excel pdf).length ∧
    (matchedIdx excel pdf).length ≤ pdf.length := by
  intro excel pdf
  obtain ⟨_, _, _, h4, h5⟩ := reconcile_coverage excel pdf
  exact ⟨by omega, h5⟩

/-- C6 counterexample: permuting the reference list changes the multiset of
classified pairs. With references (total `100`, total `200`) sharing one
identifier and a single candidate (total `200`), reference order decides who
wins the candidate in pass 2, so the two orders pair different records and
even different statuses. -/
theorem invoice_C6_cex :
    [recRefLow, recRefHigh].Perm [recRefHigh, recRefLow] ∧
    ¬ (pairsOf (compareInvoices [recRefLow, recRefHigh] [recCand])).Perm
        (pairsOf (compareInvoices [recRefHigh, recRefLow] [recCand])) := by
  constructor <;> decide

/-- C6 amended: permuting the reference or candidate list preserves the
completeness invariants of the output (each candidate index claimed exactly
once and the row-count law), but not the multiset of classified pairs, which
can change with the input order. -/
theorem invoice_C6_amended :
    ∀ excel excel' pdf pdf' : List InvoiceData,
    excel.Perm excel' → pdf.Perm pdf' →
    (∀ j, j < pdf'.length →
      (matchedIdx excel' pdf').count j + (onlyCandIdx excel' pdf').count j = 1) ∧
    (compareInvoices excel' pdf').length + (matchedIdx excel' pdf').length
      = excel'.length + pdf'.length := by
  intro excel excel' pdf pdf' h1 h2
  obtain ⟨hc, _, _, hl, _⟩ := reconcile_coverage excel' pdf'
  exact ⟨hc, hl⟩

/-- C6 amended witness at a permuted reference list. -/
theorem invoice_C6_amended_witness :
    (compareInvoices [recRefHigh, recRefLow] [recCand]).length
      + (matchedIdx [recRefHigh, recRefLow] [recCand]).length
      = ([recRefHigh, recRefLow] : List InvoiceData).length
        + ([recCand] : List InvoiceData).length :=
  (invoice_C6_amended [recRefLow, recRefHigh] [recRefHigh, recRefLow]
    [recCand] [recCand] (by decide) (by decide)).2

/-- C5 counterexample: an `ONLY_IN_CANDIDATE` (`MISSING_IN_EXCEL`) row carries
only the candidate's total amount; no issue-date field is present, refuting
the claim that both total amount and issue date appear. -/
theorem invoice_C5_cex :
    missingInExcelRow recCand ∈ compareInvoices [] [recCand] ∧
    (missingInExcelRow recCand).status = Status.MISSING_IN_EXCEL ∧
    (missingInExcelRow recCand).fields.map ComparisonField.fieldName
      = ["totalAmount"] := by
  refine ⟨by decide, rfl, rfl⟩

/-- C5 amended: `MISSING_IN_PDF` rows carry exactly the expected total amount
and issue date; `MISSING_IN_EXCEL` rows carry exactly the found total amount
(no date field); in both, every field is flagged non-matching. -/
theorem invoice_C5_amended :
    ∀ excel pdf r, r ∈ compareInvoices excel pdf →
    (r.status = Status.MISSING_IN_PDF → ∃ e, e ∈ excel ∧ r = missingInPdfRow e) ∧
    (r.status = Status.MISSING_IN_EXCEL → ∃ p, p ∈ pdf ∧ r = missingInExcelRow p) ∧
    (r.status = Status.MISSING_IN_PDF →
      r.fields.map ComparisonField.fieldName = ["totalAmount", "invoiceDate"]
      ∧ r.fields.all (fun f => !f.isMatch) = true) ∧
    (r.status = Status.MISSING_IN_EXCEL →
      r.fields.map ComparisonField.fieldName = ["totalAmount"]
      ∧ r.fields.all (fun f => !f.isMatch) = true) := by
  intro excel pdf r hr
  rw [compareInvoices_eq, List.mem_append] at hr
  have hmp : r.status = Status.MISSING_IN_PDF → ∃ e, e ∈ excel ∧ r = missingInPdfRow e := by
    intro hst
    rcases hr with hr | hr
    · obtain ⟨es, hes, rfl⟩ := List.mem_map.mp hr
      obtain ⟨e, slot⟩ := es
      cases slot with
      | some jm =>
        exfalso
        have hst' : (buildResult e (pdf.getD jm.1 default) jm.2).status
            = Status.MISSING_IN_PDF := hst
        rcases buildResult_status e (pdf.getD jm.1 default) jm.2 with h | h <;>
          rw [h] at hst' <;> exact Status.noConfusion hst'
      | none =>
        exact ⟨e, (List.of_mem_zip hes).1, rfl⟩
    · obtain ⟨jp, hjp, rfl⟩ := List.mem_map.mp hr
      exact absurd hst (fun habs => Status.noConfusion habs)
  have hme : r.status = Status.MISSING_IN_EXCEL → ∃ p, p ∈ pdf ∧ r = missingInExcelRow p := by
    intro hst
    rcases hr with hr | hr
    · obtain ⟨es, hes, rfl⟩ := List.mem_map.mp hr
      obtain ⟨e, slot⟩ := es
      cases slot with
      | some jm =>
        exfalso
        have hst' : (buildResult e (pdf.getD jm.1 default) jm.2).status
            = Status.MISSING_IN_EXCEL := hst
        rcases buildResult_status e (pdf.getD jm.1 default) jm.2 with h | h <;>
          rw [h] at hst' <;> exact Status.noConfusion hst'
      | none =>
        exact absurd hst (fun habs => Status.noConfusion habs)
    · obtain ⟨jp, hjp, rfl⟩ := List.mem_map.mp hr
      have henum : jp ∈ pdf.enum := (List.mem_filter.mp hjp).1
      have hmem : jp.2 ∈ pdf := List.get?_mem (List.mem_enum_iff_get?.mp henum)
      exact ⟨jp.2, hmem, rfl⟩
  refine ⟨hmp, hme, ?_, ?_⟩
  · intro hst
    obtain ⟨e, _, rfl⟩ := hmp hst
    exact ⟨rfl, rfl⟩
  · intro hst
    obtain ⟨p, _, rfl⟩ := hme hst
    exact ⟨rfl, rfl⟩

/-- C5 amended witness at a singleton candidate list. -/
theorem invoice_C5_amended_witness :
    (missingInExcelRow recCand).fields.map ComparisonField.fieldName = ["totalAmount"]
    ∧ (missingInExcelRow recCand).fields.all (fun f => !f.isMatch) = true :=
  (invoice_C5_amended [] [recCand] (missingInExcelRow recCand) (by decide)).2.2.2 rfl

/-! ### Pass 2 choice characterization (C8) -/

lemma eligAt_iff {e : InvoiceData} {pdf : List InvoiceData} {cl : List ℕ} {k : ℕ} :
    eligAt e pdf cl k ↔ (k, pdf.getD k default) ∈ eligibleCandidates e pdf cl := by
  rw [mem_eligibleCandidates]
  unfold eligAt
  constructor
  · rintro ⟨h1, h2, h3⟩
    exact ⟨enum_mem_of_lt h1, h2, h3⟩
  · rintro ⟨h1, h2, h3⟩
    exact ⟨(mem_enum_getD h1).1, h2, h3⟩

lemma elig_of_mem {e : InvoiceData} {pdf : List InvoiceData} {cl : List ℕ}
    {jp : ℕ × InvoiceData} (h : jp ∈ eligibleCandidates e pdf cl) :
    eligAt e pdf cl jp.1 ∧ pdf.getD jp.1 default = jp.2 := by
  have hm := mem_eligibleCandidates.mp h
  have hg := mem_enum_getD hm.1
  refine ⟨⟨hg.1, hm.2.1, ?_⟩, hg.2⟩
  rw [hg.2]
  exact hm.2.2

lemma zip_pairwise_fst {α β : Type} {R : α → α → Prop} :
    ∀ (l1 : List α) (l2 : List β), l1.Pairwise R →
      (l1.zip l2).Pairwise (fun a b => R a.1 b.1) := by
  intro l1
  induction l1 with
  | nil =>
    intro l2 h
    simp
  | cons a t ih =>
    intro l2 h
    cases l2 with
    | nil => simp
    | cons b t2 =>
      rw [List.zip_cons_cons, List.pairwise_cons]
      constructor
      · intro x hx
        obtain ⟨x1, x2⟩ := x
        exact (List.pairwise_cons.mp h).1 x1 (List.of_mem_zip hx).1
      · exact ih t2 (List.Pairwise.of_cons h)

lemma enum_pairwise_fst (pdf : List InvoiceData) :
    pdf.enum.Pairwise (fun a b => a.1 < b.1) := by
  rw [List.enum_eq_zip_range]
  exact zip_pairwise_fst _ _ (List.pairwise_lt_range _)

lemma eligible_pairwise (e : InvoiceData) (pdf : List InvoiceData) (cl : List ℕ) :
    (eligibleCandidates e pdf cl).Pairwise (fun a b => a.1 < b.1) :=
  List.Pairwise.filter _ (enum_pairwise_fst pdf)

lemma find?_earlier_false {p : ℕ × InvoiceData → Bool} :
    ∀ l : List (ℕ × InvoiceData), l.Pairwise (fun a b => a.1 < b.1) →
    ∀ x, l.find? p = some x → ∀ y ∈ l, y.1 < x.1 → p y = false := by
  intro l
  induction l with
  | nil =>
    intro _ x hx
    simp at hx
  | cons a t ih =>
    intro hpw x hfind y hy hlt
    cases hpa : p a with
    | true =>
      rw [List.find?_cons_of_pos _ hpa] at hfind
      injection hfind with hax
      subst hax
      rcases List.mem_cons.mp hy with rfl | hyt
      · omega
      · have := (List.pairwise_cons.mp hpw).1 y hyt
        omega
    | false =>
      rw [List.find?_cons_of_neg _ (by simp [hpa])] at hfind
      rcases List.mem_cons.mp hy with rfl | hyt
      · exact hpa
      · exact ih (List.Pairwise.of_cons hpw) x hfind y hyt hlt

lemma head_min {c0 : ℕ × InvoiceData} {t : List (ℕ × InvoiceData)}
    (hpw : (c0 :: t).Pairwise (fun a b => a.1 < b.1)) :
    ∀ y ∈ c0 :: t, ¬ y.1 < c0.1 := by
  intro y hy
  rcases List.mem_cons.mp hy with rfl | hyt
  · omega
  · have := (List.pairwise_cons.mp hpw).1 y hyt
    omega

/-- C8: whenever pass 2 resolves a reference, the chosen candidate is
eligible (unclaimed, identifier-matching) and is either the first eligible
candidate in original order within total-amount tolerance, or — when no
eligible candidate is within tolerance — the first eligible candidate in
original order. -/
theorem invoice_C8_pass2_choice :
    ∀ (pdf : List InvoiceData) (claimed : List ℕ) (e : InvoiceData) (j : ℕ)
      (m : MatchMethod),
    pass2Choose pdf claimed e = some (j, m) →
    m = MatchMethod.ID_ONLY ∧ eligAt e pdf claimed j ∧
    ((tolAt e pdf j = true ∧
        ∀ k, k < j → eligAt e pdf claimed k → tolAt e pdf k = false) ∨
      ((∀ k, eligAt e pdf claimed k → tolAt e pdf k = false) ∧
        ∀ k, k < j → ¬ eligAt e pdf claimed k)) := by
  intro pdf claimed e j m h
  unfold pass2Choose at h
  split at h
  · exact absurd h (by simp)
  · rename_i c0 tail heq
    injection h with h
    rw [Prod.mk.injEq] at h
    obtain ⟨hj, hm⟩ := h
    refine ⟨hm.symm, ?_, ?_⟩
    · cases hf : (eligibleCandidates e pdf claimed).find? fun jp =>
          compareNumbers e.totalAmount jp.2.totalAmount 1 with
      | some x =>
        rw [hf] at hj
        simp only [Option.getD_some] at hj
        have := (elig_of_mem (List.mem_of_find?_eq_some hf)).1
        exact hj ▸ this
      | none =>
        rw [hf] at hj
        simp only [Option.getD_none] at hj
        have hc0 : c0 ∈ eligibleCandidates e pdf claimed := by
          rw [heq]
          exact List.mem_cons_self c0 tail
        exact hj ▸ (elig_of_mem hc0).1
    · cases hf : (eligibleCandidates e pdf claimed).find? fun jp =>
          compareNumbers e.totalAmount jp.2.totalAmount 1 with
      | some x =>
        rw [hf] at hj
        simp only [Option.getD_some] at hj
        left
        constructor
        · have hpx := List.find?_some hf
          have hgd := (elig_of_mem (List.mem_of_find?_eq_some hf)).2
          unfold tolAt
          rw [← hj, hgd]
          exact hpx
        · intro k hk helig
          have hkmem := eligAt_iff.mp helig
          have := find?_earlier_false (eligibleCandidates e pdf claimed)
            (eligible_pairwise e pdf claimed) x hf (k, pdf.getD k default) hkmem
            (by rw [← hj] at hk; exact hk)
          exact this
      | none =>
        rw [hf] at hj
        simp only [Option.getD_none] at hj
        right
        have hc0 : c0 ∈ eligibleCandidates e pdf claimed := by
          rw [heq]
          exact List.mem_cons_self c0 tail
        constructor
        · intro k helig
          have hkmem := eligAt_iff.mp helig
          have hnp := List.find?_eq_none.mp hf (k, pdf.getD k default) hkmem
          cases hb : tolAt e pdf k with
          | false => rfl
          | true => exact absurd hb hnp
        · intro k hk helig
          have hkmem := eligAt_iff.mp helig
          rw [heq] at hkmem
          have hpw : (c0 :: tail).Pairwise (fun a b => a.1 < b.1) := by
            rw [← heq]
            exact eligible_pairwise e pdf claimed
          have := head_min hpw (k, pdf.getD k default) hkmem
          rw [← hj] at hk
          exact this hk

/-- C8 witness: with candidates (total `500`, total `100`) sharing the
reference's identifier, pass 2 skips the first and picks the
within-tolerance second. -/
theorem invoice_C8_witness :
    MatchMethod.ID_ONLY = MatchMethod.ID_ONLY ∧
    eligAt recTieRef [recTieFar, recTieNear] [] 1 ∧
    ((tolAt recTieRef [recTieFar, recTieNear] 1 = true ∧
        ∀ k, k < 1 → eligAt recTieRef [recTieFar, recTieNear] [] k →
          tolAt recTieRef [recTieFar, recTieNear] k = false) ∨
      ((∀ k, eligAt recTieRef [recTieFar, recTieNear] [] k →
          tolAt recTieRef [recTieFar, recTieNear] k = false) ∧
        ∀ k, k < 1 → ¬ eligAt recTieRef [recTieFar, recTieNear] [] k)) :=
  invoice_C8_pass2_choice [recTieFar, recTieNear] [] recTieRef 1
    MatchMethod.ID_ONLY (by decide)

/-! ### Pass 1 gating on the raw tax id (C10) -/

lemma pass1Choose_none_of_empty_gst (pdf : List InvoiceData) (cl : List ℕ)
    {e : InvoiceData} (hgst : e.gstNumber = "") :
    pass1Choose pdf cl e = none := by
  simp only [pass1Choose]
  rw [if_neg]
  intro habs
  exact habs.2 hgst

lemma runPass_slot_none {choose : List ℕ → InvoiceData → Option (ℕ × MatchMethod)} :
    ∀ (items : List (InvoiceData × Option (ℕ × MatchMethod))) (cl : List ℕ)
      (i : ℕ) (e : InvoiceData),
    items.get? i = some (e, none) → (∀ cl2, choose cl2 e = none) →
    (runPass choose cl items).2.get? i = some none := by
  intro items
  induction items with
  | nil =>
    intro cl i e hget
    simp at hget
  | cons es rest ih =>
    intro cl i e hget hnone
    obtain ⟨e0, slot0⟩ := es
    cases i with
    | zero =>
      injection hget with hget
      rw [Prod.mk.injEq] at hget
      obtain ⟨rfl, rfl⟩ := hget
      rw [runPass_cons_skip (hnone cl)]
      rfl
    | succ i =>
      have hget' : rest.get? i = some (e, none) := hget
      cases slot0 with
      | some r =>
        rw [runPass_cons_filled]
        exact ih cl i e hget' hnone
      | none =>
        cases hch : choose cl e0 with
        | some jm =>
          obtain ⟨j0, m0⟩ := jm
          rw [runPass_cons_claim hch]
          exact ih (cl ++ [j0]) i e hget' hnone
        | none =>
          rw [runPass_cons_skip hch]
          exact ih cl i e hget' hnone

/-- C10: pass 1 is gated on the raw tax id being non-empty (a reference with
an empty raw tax id is never resolved in pass 1), while the tax-id equality
it applies compares cleaned forms; consequently a reference whose tax id is
punctuation only (cleaning to the empty string) is resolved in pass 1 to a
candidate whose differently-punctuated tax id also cleans to the empty
string. -/
theorem invoice_C10_pass1_gating :
    (∀ (excel pdf : List InvoiceData) (i : ℕ) (e : InvoiceData),
      excel.get? i = some e → e.gstNumber = "" →
      (runPass (pass1Choose pdf) [] (initSlots excel)).2.get? i = some none) ∧
    (runPass (pass1Choose [recPunctCand]) [] (initSlots [recPunctRef])
        = ([0], [some (0, MatchMethod.STRICT_GST)]) ∧
      recPunctRef.gstNumber ≠ "" ∧
      cleanString recPunctRef.gstNumber = "" ∧
      cleanString recPunctCand.gstNumber = "") := by
  constructor
  · intro excel pdf i e hget hgst
    have hinit : (initSlots excel).get? i = some (e, none) := by
      unfold initSlots
      rw [List.get?_map, hget]
      rfl
    exact runPass_slot_none (initSlots excel) [] i e hinit
      (fun cl2 => pass1Choose_none_of_empty_gst pdf cl2 hgst)
  · refine ⟨by decide, by decide, by decide, by decide⟩

/-- C10 witness: a reference with an empty raw tax id stays unresolved
through pass 1. -/
theorem invoice_C10_witness :
    (runPass (pass1Choose [recPunctCand]) [] (initSlots [recNoGstRef])).2.get? 0
      = some none :=
  invoice_C10_pass1_gating.1 [recNoGstRef] [recPunctCand] 0 recNoGstRef rfl rfl
